import Mathlib

/-!
Verification of the CWL `CommandLineTool` execution core
(`cwltool/command_line_tool.py`): a shallow embedding of the job preparer,
the cache-key computation, reverse path mapping, shell command assembly,
and the output collector, together with theorems checking the
natural-language specification against this embedding.

Conventions: Python dictionaries become association lists with
insertion-order-preserving update semantics; fallible code returns
`Except String`; the host platform is POSIX (`os.sep = "/"`).
External collaborators that the core only calls through a narrow
interface (the expression evaluator, the filesystem access object,
the MD5 digest) are taken as explicit function parameters.
-/

set_option autoImplicit false

namespace Cwltool

/-- JSON-like CWL values: the payloads of tool descriptions, requirement
objects and output descriptors (`CWLObjectType` / `CWLOutputType` in the
source). -/
inductive CWLVal where
  | null
  | bool (b : Bool)
  | num (n : Int)
  | str (s : String)
  | arr (xs : List CWLVal)
  | obj (kvs : List (String × CWLVal))

/-- Python truthiness (`bool(x)`) for CWL values: `None`, `False`, `0`,
`""`, `[]` and `{}` are falsy, everything else truthy. -/
def truthy : CWLVal → Bool
  | .null => false
  | .bool b => b
  | .num n => n != 0
  | .str s => s != ""
  | .arr xs => !xs.isEmpty
  | .obj kvs => !kvs.isEmpty

/-- Association-list model of a Python `dict` with string keys. -/
abbrev Dict := List (String × CWLVal)

/-- `d[k]` lookup: first entry with the given key (keys are unique by
construction of `dictInsert`). -/
def dictLookup (k : String) : Dict → Option CWLVal
  | [] => none
  | (k2, v) :: rest => if k2 = k then some v else dictLookup k rest

/-- `k in d`. -/
def dictContains (k : String) (d : Dict) : Bool :=
  (dictLookup k d).isSome

/-- `d[k] = v`: replace in place when the key exists (keeping its
position, as CPython dicts do), otherwise append at the end. -/
def dictInsert (k : String) (v : CWLVal) : Dict → Dict
  | [] => [(k, v)]
  | (k2, v2) :: rest =>
      if k2 = k then (k2, v) :: rest else (k2, v2) :: dictInsert k v rest

/-- Lexicographic order on character lists by code point: the collation
of `locale.strcoll` in the C locale, and the key order of
`sort_keys=True` in `json.dumps`. -/
def charListLe : List Char → List Char → Bool
  | [], _ => true
  | _ :: _, [] => false
  | a :: as, b :: bs =>
      if a.toNat < b.toNat then true
      else if b.toNat < a.toNat then false
      else charListLe as bs

/-- Code-point order on strings (see `charListLe`). -/
def strLe (a b : String) : Bool :=
  charListLe a.data b.data

/-- Insert a string into a list sorted by `strLe` (before the first
element that is not smaller). -/
def insertSortedStr (x : String) : List String → List String
  | [] => [x]
  | y :: ys => if strLe x y then x :: y :: ys else y :: insertSortedStr x ys

/-- Insertion sort of strings by code-point order. -/
def sortStrings (l : List String) : List String :=
  l.foldr insertSortedStr []

/-- Insert a key/serialized-entry pair into a list sorted by key. -/
def insertSortedPair (x : String × String) : List (String × String) → List (String × String)
  | [] => [x]
  | y :: ys => if strLe x.1 y.1 then x :: y :: ys else y :: insertSortedPair x ys

/-- Insertion sort of key/serialized-entry pairs by key (stable). -/
def sortPairs (l : List (String × String)) : List (String × String) :=
  l.foldr insertSortedPair []

/-- Is `pat` a contiguous substring of the second list? -/
def charsInfixOf (pat : List Char) : List Char → Bool
  | [] => pat.isEmpty
  | c :: rest => pat.isPrefixOf (c :: rest) || charsInfixOf pat rest

/-- `s.startswith(pre)`, computed on the underlying character lists
(kernel-reducible, unlike `String.startsWith`). -/
def strStartsWith (s pre : String) : Bool :=
  pre.data.isPrefixOf s.data

/-- `s.endswith(suf)`, computed on the underlying character lists. -/
def strEndsWith (s suf : String) : Bool :=
  suf.data.isSuffixOf s.data

/-- `sep.join(l)`, computed recursively. -/
def strIntercalate (sep : String) : List String → String
  | [] => ""
  | [x] => x
  | x :: xs => x ++ sep ++ strIntercalate sep xs

/-- Decimal digits of a natural number (`fuel` bounds the recursion and
is chosen large enough at the call site). -/
def natToCharsAux (fuel n : Nat) : List Char :=
  match fuel with
  | 0 => []
  | fuel + 1 =>
      if n < 10 then [Char.ofNat (48 + n)]
      else natToCharsAux fuel (n / 10) ++ [Char.ofNat (48 + n % 10)]

/-- Decimal rendering of a natural number. -/
def natToStr (n : Nat) : String :=
  String.mk (natToCharsAux (n + 1) n)

/-- Decimal rendering of an integer, as `json.dumps` prints Python
ints. -/
def intToStr (n : Int) : String :=
  if n < 0 then "-" ++ natToStr (-n).toNat else natToStr n.toNat

/-- Four-digit uppercase-free hex rendering used by `\u` escapes. -/
def hex4 (n : Nat) : String :=
  let dig (k : Nat) : Char :=
    if k < 10 then Char.ofNat (48 + k) else Char.ofNat (97 + (k - 10))
  String.mk [dig (n / 4096 % 16), dig (n / 256 % 16), dig (n / 16 % 16), dig (n % 16)]

/-- JSON string-character escaping as `json.dumps` produces it with the
default `ensure_ascii=True` (characters beyond the basic multilingual
plane would use surrogate pairs; the model covers the BMP). -/
def jsonEscapeChar (c : Char) : String :=
  if c = '"' then "\\\""
  else if c = '\\' then "\\\\"
  else if c = '\n' then "\\n"
  else if c = '\t' then "\\t"
  else if c = '\r' then "\\r"
  else if c.toNat < 32 || c.toNat > 126 then "\\u" ++ hex4 c.toNat
  else String.singleton c

/-- A JSON string literal for `s`. -/
def jsonStr (s : String) : String :=
  "\"" ++ String.mk (s.data.flatMap (fun c => (jsonEscapeChar c).data)) ++ "\""

mutual

/-- Canonical JSON serialization: `json_dumps(x, separators=(",", ":"),
sort_keys=True)` — compact separators, object keys sorted.  (Entries are
serialized first and then sorted by key; since the sort compares keys
only and keys in a dict are unique, this equals sorting the keys before
serialization.) -/
def dumpJson : CWLVal → String
  | .null => "null"
  | .bool true => "true"
  | .bool false => "false"
  | .num n => intToStr n
  | .str s => jsonStr s
  | .arr xs => "[" ++ strIntercalate "," (dumpArr xs) ++ "]"
  | .obj kvs =>
      "\x7b" ++
        strIntercalate ","
          ((sortPairs (dumpEntries kvs)).map (fun kv => jsonStr kv.1 ++ ":" ++ kv.2)) ++
      "\x7d"

/-- Serialize every element of a JSON array. -/
def dumpArr : List CWLVal → List String
  | [] => []
  | x :: xs => dumpJson x :: dumpArr xs

/-- Serialize every entry of a JSON object, keeping the key alongside. -/
def dumpEntries : List (String × CWLVal) → List (String × String)
  | [] => []
  | (k, v) :: kvs => (k, dumpJson v) :: dumpEntries kvs

end

/-! ### POSIX path and URI helpers

Models of the `os.path` / `urllib` / `schema_salad.ref_resolver`
operations the core calls, specialized to a POSIX host (`os.sep = "/"`)
and to paths without characters that would require percent-encoding. -/

/-- `os.path.basename`: the substring after the last `/`. -/
def os_basename (p : String) : String :=
  String.mk ((p.data.reverse.takeWhile (fun c => c != '/')).reverse)

/-- `os.path.isabs` on POSIX. -/
def os_isabs (p : String) : Bool :=
  strStartsWith p "/"

/-- `os.path.join(a, b)` on POSIX (also the `join` of `StdFsAccess`):
an absolute second component replaces the first. -/
def fs_join (a b : String) : String :=
  if strStartsWith b "/" then b
  else if strEndsWith a "/" then a ++ b
  else a ++ "/" ++ b

/-- Whether `urllib.parse.urlsplit` finds a URI scheme: a nonempty
prefix of scheme characters terminated by `:` before any `/`. -/
def hasUriScheme (s : String) : Bool :=
  let pre := s.data.takeWhile (fun c => c != ':' && c != '/')
  !pre.isEmpty && (s.data.drop pre.length).head? == some ':'

/-- `schema_salad.ref_resolver.file_uri` for paths without reserved
characters (no percent-encoding needed). -/
def file_uri (p : String) : String :=
  "file://" ++ p

/-- `schema_salad.ref_resolver.uri_file_path` on a `file://` URI without
percent-escapes. -/
def uri_file_path (l : String) : String :=
  l.drop 7

/-! ### Cache key computation (`CommandLineTool.job`, cache branch)

The cache key is an MD5 hex digest of the canonical JSON serialization
of `keydict`, assembled from: the resolved command line, the tool's
`stdin`/`stdout`/`stderr` entries, a `[size, checksum-or-mtime]` pair per
`File` entry of the cache builder's path mapper, and selected
"interesting" requirements/hints. -/

/-- A requirement or hint: its `class` field paired with the whole
requirement object (the source reads `r["class"]`; carrying the class
separately keeps the embedding total). -/
abbrev Requirement := String × CWLVal

/-- An entry of a `PathMapper`: keyed by `location`, carrying the
resolved (host) path, the staged target path, and a type string
(`File`, `Directory`, `WritableFile`, ...). -/
structure MapperEnt where
  location : String
  resolved : String
  target : String
  typ : String
deriving DecidableEq, Repr

/-- The fields of `cachebuilder.files` entries that `calc_checksum`
inspects: optional `location` and `checksum` keys. -/
structure BuilderFile where
  location : Option String := none
  checksum : Option String := none
deriving DecidableEq, Repr

/-- `calc_checksum` (nested in `CommandLineTool.job`): the checksum of
the first `cachebuilder.files` entry whose `location` matches and whose
`checksum` is present and is not the placeholder `"sha1$hash"`. -/
def calc_checksum (files : List BuilderFile) (location : String) : Option String :=
  match files with
  | [] => none
  | e :: rest =>
      match e.location, e.checksum with
      | some l, some c =>
          if l = location && c != "sha1$hash" then some c
          else calc_checksum rest location
      | _, _ => calc_checksum rest location

/-- Host stat information for a resolved path: `st_size` and
`int(st_mtime * 1000)` (the float truncation happens outside the
model; the second component is already the millisecond integer). -/
abbrev StatFn := String → Int × Int

/-- The keydict value for one `File` path-mapper entry:
`[size, checksum]` when a trusted checksum is known, else
`[size, mtime_ms]`. -/
def cacheFileVal (files : List BuilderFile) (stat : StatFn) (e : MapperEnt) : CWLVal :=
  match calc_checksum files e.location with
  | some c => .arr [.num (stat e.resolved).1, .str c]
  | none => .arr [.num (stat e.resolved).1, .num (stat e.resolved).2]

/-- The `for location, fobj in cachebuilder.pathmapper.items()` loop:
insert a `[size, checksum-or-mtime]` entry keyed by the resolved path
for every mapper entry of type `File`. -/
def cacheFileEntries (files : List BuilderFile) (stat : StatFn) :
    List MapperEnt → Dict → Dict
  | [], d => d
  | e :: rest, d =>
      let d := if e.typ = "File" then dictInsert e.resolved (cacheFileVal files stat e) d else d
      cacheFileEntries files stat rest d

/-- The `interesting` set of requirement classes included in the cache
key. -/
def interesting : List String :=
  ["DockerRequirement", "EnvVarRequirement", "InitialWorkDirRequirement",
   "ShellCommandRequirement", "NetworkAccess"]

/-- One pass of the requirement scan: iterate a reversed
requirement/hint list, inserting each interesting class not already in
the keydict. -/
def addInterestingList : List Requirement → Dict → Dict
  | [], d => d
  | r :: rest, d =>
      let d :=
        if interesting.contains r.1 && !dictContains r.1 d then dictInsert r.1 r.2 d else d
      addInterestingList rest d

/-- The `for rh in (self.original_requirements, self.original_hints):
for r in reversed(rh): ...` loops. -/
def addInteresting (reqs hints : List Requirement) (d : Dict) : Dict :=
  addInterestingList hints.reverse (addInterestingList reqs.reverse d)

/-- `docker_req.get("dockerImageId") or docker_req.get("dockerPull")`
with Python `or` semantics (left operand kept only when truthy). -/
def dockerImgOf (dr : Dict) : Option CWLVal :=
  match dictLookup "dockerImageId" dr with
  | some v => if truthy v then some v else dictLookup "dockerPull" dr
  | none => dictLookup "dockerPull" dr

/-- The resolved command line hashed into the cache key: the flattened
`generate_arg` output (`genCmdline`, abstracted), prefixed with
`["docker", "run", image]` when a container image applies. -/
def resolvedCmdline (genCmdline : List CWLVal) (dockerReq : Option Dict)
    (useContainer : Bool) (defaultContainer : Option CWLVal) : List CWLVal :=
  let dockerimg : Option CWLVal :=
    match dockerReq, useContainer with
    | some dr, true => dockerImgOf dr
    | _, _ => if defaultContainer.isSome && useContainer then defaultContainer else none
  match dockerimg with
  | some img => .str "docker" :: .str "run" :: img :: genCmdline
  | none => genCmdline

/-- `if shortcut in self.tool: keydict[shortcut] = self.tool[shortcut]`
for one shortcut key. -/
def insertIfPresent (k : String) (v : Option CWLVal) (d : Dict) : Dict :=
  match v with
  | some x => dictInsert k x d
  | none => d

/-- The `keydict` mapping assembled in the cache branch of
`CommandLineTool.job`: command line, `stdin`/`stdout`/`stderr` entries
verbatim when present in the tool, per-file `[size, ...]` pairs, and the
interesting requirements/hints. -/
def cacheKeydict (genCmdline : List CWLVal) (dockerReq : Option Dict)
    (useContainer : Bool) (defaultContainer : Option CWLVal)
    (toolStdin toolStdout toolStderr : Option CWLVal)
    (files : List BuilderFile) (stat : StatFn) (pm : List MapperEnt)
    (reqs hints : List Requirement) : Dict :=
  let keydict : Dict :=
    [("cmdline", .arr (resolvedCmdline genCmdline dockerReq useContainer defaultContainer))]
  let keydict := insertIfPresent "stdin" toolStdin keydict
  let keydict := insertIfPresent "stdout" toolStdout keydict
  let keydict := insertIfPresent "stderr" toolStderr keydict
  let keydict := cacheFileEntries files stat pm keydict
  addInteresting reqs hints keydict

/-- `keydictstr`: canonical JSON serialization of the keydict
(`json_dumps(keydict, separators=(",", ":"), sort_keys=True)`). -/
def cacheKeydictStr (genCmdline : List CWLVal) (dockerReq : Option Dict)
    (useContainer : Bool) (defaultContainer : Option CWLVal)
    (toolStdin toolStdout toolStderr : Option CWLVal)
    (files : List BuilderFile) (stat : StatFn) (pm : List MapperEnt)
    (reqs hints : List Requirement) : String :=
  dumpJson (.obj (cacheKeydict genCmdline dockerReq useContainer defaultContainer
    toolStdin toolStdout toolStderr files stat pm reqs hints))

/-- `cachekey = hashlib.md5(keydictstr.encode("utf-8")).hexdigest()`,
with the MD5 hex digest abstracted as a function parameter. -/
def cachekeyOf (md5hex : String → String) (genCmdline : List CWLVal) (dockerReq : Option Dict)
    (useContainer : Bool) (defaultContainer : Option CWLVal)
    (toolStdin toolStdout toolStderr : Option CWLVal)
    (files : List BuilderFile) (stat : StatFn) (pm : List MapperEnt)
    (reqs hints : List Requirement) : String :=
  md5hex (cacheKeydictStr genCmdline dockerReq useContainer defaultContainer
    toolStdin toolStdout toolStderr files stat pm reqs hints)

/-- The keydict keys that are never resolved file paths: the fixed keys
and the interesting requirement classes.  Hypotheses of the cache-key
theorems keep resolved paths out of this set. -/
def reservedCacheKeys : List String :=
  ["cmdline", "stdin", "stdout", "stderr"] ++ interesting

/-- Spec wording: the last occurrence of class `cls` in a requirement
list (the first occurrence of the reversed list). -/
def lastOccurrence (rs : List Requirement) (cls : String) : Option CWLVal :=
  (rs.reverse.find? (fun r => r.1 = cls)).map (·.2)

/-- Spec-side description of the cache-key mapping (with the amended
requirement-selection rule): `cmdline` maps to the full resolved command
line; `stdin`/`stdout`/`stderr` map to the tool's entries verbatim; an
interesting class maps to its last occurrence among the requirements
when present there, otherwise its last occurrence among the hints; any
other key is a resolved `File` path mapping to `[size, checksum]` for a
trusted checksum, else `[size, mtime_ms]`. -/
def specCacheMapping (cmdline : List CWLVal)
    (toolStdin toolStdout toolStderr : Option CWLVal)
    (files : List BuilderFile) (stat : StatFn) (pm : List MapperEnt)
    (reqs hints : List Requirement) (k : String) : Option CWLVal :=
  if k = "cmdline" then some (.arr cmdline)
  else if k = "stdin" then toolStdin
  else if k = "stdout" then toolStdout
  else if k = "stderr" then toolStderr
  else if interesting.contains k then
    match lastOccurrence reqs k with
    | some v => some v
    | none => lastOccurrence hints k
  else
    match (pm.filter (fun e => e.typ = "File")).find? (fun e => e.resolved = k) with
    | some e => some (cacheFileVal files stat e)
    | none => none

/-! ### Reverse path mapping (`revmap_file`)

Remaps a File/Directory descriptor produced inside the sandbox back to
a host location.  The descriptor model keeps the fields `revmap_file`
reads or writes (`class`, `location`, `path`, `basename`) plus the name
decomposition fields filled by glob collection. -/

/-- A File/Directory descriptor (the fields relevant to reverse mapping
and output collection; absent dictionary keys are `none`). -/
structure FileDesc where
  cls : Option String := none
  location : Option String := none
  path : Option String := none
  basename : Option String := none
  nameroot : Option String := none
  nameext : Option String := none
deriving DecidableEq, Repr

/-- `Modelled from the spec:` `PathMapper.reversemap` followed by
`PathMapper.mapper` (`cwltool/pathmapper.py`, not under `src/`): the
spec says `reversemap(target)` is the inverse lookup returning the
`(location, host-path)` of the entry staged at `target`, returning
nothing when the target is not staged, and that distinct locations never
map to the same target; so both calls together retrieve the unique
entry whose `target` equals the queried path. -/
def reversemapEnt (pm : List MapperEnt) (t : String) : Option MapperEnt :=
  pm.find? (fun e => e.target = t)

/-- The builder fields `revmap_file` uses: the in-sandbox output
directory and the path mapper. -/
structure RevBuilder where
  outdir : String
  pathmapper : List MapperEnt
deriving DecidableEq, Repr

/-- The cascade of `revmap_file` once a `path` is known (`outdirURI` is
the host output directory, already in URI form; the descriptor has had
`path` removed and `basename` defaulted).  On POSIX `os.sep = "/"`, so
the source's `startswith(outdir + os.sep)` and `startswith(outdir +
"/")` checks coincide. -/
def revmapPath (b : RevBuilder) (outdirURI : String) (f : FileDesc) (p : String) :
    Except String FileDesc :=
  let uripath := file_uri p
  let f := { f with path := none,
                    basename := some (f.basename.getD (os_basename p)) }
  let fallthrough : Except String FileDesc :=
    if uripath = outdirURI || strStartsWith uripath (outdirURI ++ "/")
        || strStartsWith uripath (outdirURI ++ "/") then
      .ok { f with location := some (file_uri p) }
    else if p = b.outdir || strStartsWith p (b.outdir ++ "/")
        || strStartsWith p (b.outdir ++ "/") then
      .ok { f with location := some (fs_join outdirURI (p.drop (b.outdir.length + 1))) }
    else if !os_isabs p then
      .ok { f with location := some (fs_join outdirURI p) }
    else
      .error ("Output file path " ++ p ++
        " must be within designated output directory (" ++ b.outdir ++
        ") or an input file pass through.")
  match reversemapEnt b.pathmapper p with
  | some e =>
      if !strStartsWith e.typ "Writable" then .ok { f with location := some e.resolved }
      else fallthrough
  | none => fallthrough

/-- `revmap_file(builder, outdir, f)`: convert `outdir` to a URI when it
has no scheme; materialize `path` from a `file://` location; pass
non-`file://` locations through untouched; fail when the descriptor has
neither `location` nor `path`. -/
def revmap_file (b : RevBuilder) (outdir0 : String) (f : FileDesc) :
    Except String FileDesc :=
  let outdir := if hasUriScheme outdir0 then outdir0 else file_uri outdir0
  match f.path with
  | some p => revmapPath b outdir f p
  | none =>
      match f.location with
      | some loc =>
          if strStartsWith loc "file://" then
            revmapPath b outdir { f with path := some (uri_file_path loc) } (uri_file_path loc)
          else .ok f
      | none =>
          .error "Output File object is missing both location and path fields"

/-- Spec-side location cascade from the claim's wording (the cases after
the pass-through check): the path's URI when it equals or lies under the
host output directory; rebase onto the host output directory when the
path equals or lies under the sandbox output directory; join a relative
path to the host output directory; otherwise a workflow error. -/
def specRevmapFallback (b : RevBuilder) (hostOutdir : String) (p : String) :
    Except String String :=
  if file_uri p = hostOutdir || strStartsWith (file_uri p) (hostOutdir ++ "/") then
    .ok (file_uri p)
  else if p = b.outdir || strStartsWith p (b.outdir ++ "/") then
    .ok (fs_join hostOutdir (p.drop (b.outdir.length + 1)))
  else if !os_isabs p then
    .ok (fs_join hostOutdir p)
  else
    .error ("Output file path " ++ p ++
      " must be within designated output directory (" ++ b.outdir ++
      ") or an input file pass through.")

/-- Spec-side location cascade from the claim's wording: pass-through
for a non-`Writable` mapper entry, otherwise the host-output-directory
cases of `specRevmapFallback`. -/
def specRevmapLocation (b : RevBuilder) (outdir0 : String) (p : String) :
    Except String String :=
  let hostOutdir := if hasUriScheme outdir0 then outdir0 else file_uri outdir0
  match reversemapEnt b.pathmapper p with
  | some e =>
      if !strStartsWith e.typ "Writable" then .ok e.resolved
      else specRevmapFallback b hostOutdir p
  | none => specRevmapFallback b hostOutdir p

/-! ### Cache lookup decision and `CallbackJob` (`CommandLineTool.job`)

The cache branch of `job` either yields a `CallbackJob` backed by the
cached directory (cache hit), or redirects the output directory to the
cache directory and wraps the output callback (cache miss), or is
skipped entirely (no cache directory, or reuse disabled). -/

/-- The fields of a `CallbackJob` that its `run` uses: the cache
builder's (possibly reassigned) output directory and `self.outdir`, the
cached job directory. -/
structure CallbackJobM where
  cachebuilderOutdir : String
  outdir : String
deriving DecidableEq, Repr

/-- `CallbackJob.run`: invoke the output collector
(`collect_output_ports(tool["outputs"], cachebuilder, self.outdir, ...)`,
abstracted as `collect` applied to the cache builder's outdir and the
cached directory) and hand the result to the output callback with status
`"success"`.  The returned pair is the callback invocation. -/
def runCallbackJob {α : Type} (collect : String → String → α) (cb : CallbackJobM) : α × String :=
  (collect cb.cachebuilderOutdir cb.outdir, "success")

/-- The decision taken by the cache branch. -/
inductive CacheOutcome where
  /-- Cache hit: yield a `CallbackJob` and return (no backend job). -/
  | hit (cb : CallbackJobM)
  /-- Cache miss: run a real job with its output directory redirected to
  the cache directory and the output callback wrapped to record the
  final status. -/
  | miss (redirectedOutdir : String)
  /-- No cache directory configured or reuse disabled. -/
  | skipped
deriving DecidableEq, Repr

/-- `workReuse.get("enableReuse", True) if workReuse else True`. -/
def enableReuseOf (workReuse : Option Dict) : CWLVal :=
  match workReuse with
  | some w => (dictLookup "enableReuse" w).getD (.bool true)
  | none => .bool true

/-- The cache branch of `CommandLineTool.job`: compute
`jobcache = join(cachedir, cachekey)`, read the status file (under the
shared lock, abstracted as `readStatus`), and decide hit/miss.  On a
hit, `cachebuilder.outdir` becomes the container output directory when
running containerized, else the cache directory itself. -/
def cachePhase (cachedir : Option String) (workReuse : Option Dict) (cachekey : String)
    (isdir : String → Bool) (readStatus : String → String)
    (dockerReq : Option Dict) (useContainer : Bool)
    (dockerOutdir : Option String) (randomOutdir : String) : CacheOutcome :=
  match cachedir with
  | none => .skipped
  | some cd =>
      if !truthy (enableReuseOf workReuse) then .skipped
      else
        let jobcache := fs_join cd cachekey
        let jobstatus := readStatus (jobcache ++ ".status")
        if isdir jobcache && jobstatus = "success" then
          let cbOutdir :=
            if dockerReq.isSome && useContainer then dockerOutdir.getD randomOutdir
            else jobcache
          .hit ⟨cbOutdir, jobcache⟩
        else .miss jobcache

/-! ### Shell command assembly (`CommandLineTool.job`, step 7) -/

/-- A command-line binding as the assembly loop sees it: its
`shellQuote` entry (absent means the default `True`) and the token list
produced for it by `builder.generate_arg` (an external call whose
per-binding result the embedding records). -/
structure ShellBinding where
  shellQuote : Option Bool := none
  args : List String
deriving DecidableEq, Repr

/-- `shellescape.quote` (POSIX): empty string becomes two single
quotes; a string of safe characters (ASCII word characters or one of
`@ % + = : , . - ` and the forward slash) is returned unchanged;
anything else is wrapped in single quotes with embedded single quotes
rendered as quote, double-quote, quote, double-quote, quote. -/
def shellSafeChar (c : Char) : Bool :=
  (c.isAlpha && c.toNat < 128) || c.isDigit || c = '_' || c = '@' || c = '%' ||
    c = '+' || c = '=' || c = ':' || c = ',' || c = '.' || c = '/' || c = '-'

/-- POSIX shell quoting (see `shellSafeChar`). -/
def shellQuoteStr (s : String) : String :=
  if s = "" then "\x27\x27"
  else if s.toList.all shellSafeChar then s
  else "\x27" ++ String.mk (s.data.flatMap (fun c => if c = '\x27' then "\x27\"\x27\"\x27".data else [c])) ++ "\x27"

/-- The `ShellCommandRequirement` branch: extend `cmd` with each
binding's tokens, quoting them unless the binding sets
`shellQuote=false`, then wrap as `["/bin/sh", "-c", joined]`. -/
def assembleShellCommand (bindings : List ShellBinding) : List String :=
  let cmd := bindings.foldl (fun cmd b =>
    let arg := if b.shellQuote.getD true then b.args.map shellQuoteStr else b.args
    cmd ++ arg) []
  ["/bin/sh", "-c", strIntercalate " " cmd]

/-- The plain branch: `flatten(list(map(builder.generate_arg,
builder.bindings)))`. -/
def assemblePlainCommand (bindings : List ShellBinding) : List String :=
  (bindings.map (·.args)).flatten

/-- `j.command_line` as assembled in step 7, by presence of
`ShellCommandRequirement`. -/
def assembleCommandLine (shellcmd : Bool) (bindings : List ShellBinding) : List String :=
  if shellcmd then assembleShellCommand bindings else assemblePlainCommand bindings

/-! ### Runner selection (`CommandLineTool.make_job_runner`) -/

/-- The backend job classes `make_job_runner` can return. -/
inductive JobRunner where
  | singularityJob
  | udockerJob
  | dockerJob
  | commandLineJob
deriving DecidableEq, Repr

/-- The runtime-context fields `make_job_runner` consults.
`find_default_container` is `none` when the attribute is unset, and
`some r` when calling it returned `r`. -/
structure RunnerCtx where
  use_container : Bool
  singularity : Bool
  user_space_docker_cmd : Option String
  find_default_container : Option (Option String)
deriving DecidableEq, Repr

/-- `Modelled from the spec:` `Process.get_requirement`
(`cwltool/process.py`, not under `src/`): per spec §4.5 step 1 and §7,
a requirement class is looked up among the tool's `requirements` first
(flag `true`), falling back to `hints` (flag `false`). -/
def get_requirement (reqs hints : List Requirement) (cls : String) : Option (CWLVal × Bool) :=
  match reqs.find? (fun r => r.1 = cls) with
  | some r => some (r.2, true)
  | none => (hints.find? (fun r => r.1 = cls)).map (fun r => (r.2, false))

/-- `make_job_runner`: possibly inject a default-container
`DockerRequirement` at the front of the requirements; pick Singularity /
user-space Docker / Docker when containers are enabled and a
`DockerRequirement` applies; otherwise fail if a `DockerRequirement`
sits in `requirements`, else run as a local process.  Returns the
selected runner together with the (possibly extended) requirements. -/
def make_job_runner (reqs hints : List Requirement) (ctx : RunnerCtx) :
    Except String (JobRunner × List Requirement) :=
  let dockerReq := (get_requirement reqs hints "DockerRequirement").map (·.1)
  let step : Option CWLVal × List Requirement :=
    if dockerReq.isNone && ctx.use_container then
      match ctx.find_default_container with
      | some (some c) =>
          let newReq : Requirement :=
            ("DockerRequirement",
             .obj [("class", .str "DockerRequirement"), ("dockerPull", .str c)])
          (some newReq.2, newReq :: reqs)
      | _ => (dockerReq, reqs)
    else (dockerReq, reqs)
  if step.1.isSome && ctx.use_container then
    .ok ((if ctx.singularity then .singularityJob
          else if ctx.user_space_docker_cmd.isSome then .udockerJob
          else .dockerJob), step.2)
  else if step.2.reverse.any (fun t => t.1 = "DockerRequirement") then
    .error "--no-container, but this CommandLineTool has DockerRequirement under \x27requirements\x27."
  else .ok (.commandLineJob, step.2)

/-! ### Output collection (`CommandLineTool.collect_output`)

The filesystem access object is a record of pure query functions; the
expression evaluator is passed in where `collect_output` calls
`builder.do_eval`. -/

/-- The `StdFsAccess` capabilities `collect_output` uses. -/
structure FS where
  existsF : String → Bool
  isfileF : String → Bool
  isdirF : String → Bool
  globF : String → List String

/-- Index of the last occurrence of `c` in a character list. -/
def lastIdxOf (c : Char) (l : List Char) : Option Nat :=
  match l.reverse.findIdx? (· = c) with
  | some j => some (l.length - 1 - j)
  | none => none

/-- `os.path.splitext`: split off the extension at the last dot, unless
every character before it is a dot (so dotfiles keep their name). -/
def os_splitext (s : String) : String × String :=
  match lastIdxOf '.' s.toList with
  | none => (s, "")
  | some i => if (s.take i).toList.all (· = '.') then (s, "") else (s.take i, s.drop i)

/-- Per-pattern translation in the glob loop of `collect_output`, in
source order: a pattern under the in-sandbox output directory is made
relative; `"."` becomes the (host) output directory; a remaining
pattern starting with `/` is rejected; anything else passes through. -/
def translateGlob (builderOutdir outdir : String) (gb : String) : Except String String :=
  if strStartsWith gb builderOutdir then .ok (gb.drop (builderOutdir.length + 1))
  else if gb = "." then .ok outdir
  else if strStartsWith gb "/" then
    .error "glob patterns must not start with \x27/\x27"
  else .ok gb

/-- Wrap one glob hit `g` as a File/Directory descriptor: `location` is
the hit, `path` rebases it onto the sandbox output directory using the
first hit of `glob(outdir)` as prefix, the name fields come from the
basename, and the class is chosen by `isfile`. -/
def globWrap (fs : FS) (builderOutdir : String) (prefixLen : Nat) (g : String) : FileDesc :=
  { location := some g,
    path := some (fs_join builderOutdir (g.drop (prefixLen + 1))),
    basename := some (os_basename g),
    nameroot := some (os_splitext (os_basename g)).1,
    nameext := some (os_splitext (os_basename g)).2,
    cls := some (if fs.isfileF g then "File" else "Directory") }

/-- Execute one translated glob pattern: `fs_access.glob(join(outdir,
pattern))`, hits sorted by locale collation (code-point order in the C
locale), each wrapped as a descriptor.  An empty `glob(outdir)` would
make the source's `prefix[0]` raise. -/
def globExecute (fs : FS) (builderOutdir outdir : String) (pat : String) :
    Except String (List FileDesc) :=
  match fs.globF outdir with
  | [] => .error "IndexError: list index out of range"
  | pfx :: _ =>
      .ok ((sortStrings (fs.globF (fs_join outdir pat))).map
            (globWrap fs builderOutdir pfx.length))

/-- The shape of `schema["type"]`: a plain type name, a union list, or
a record mapping. -/
inductive SchemaType where
  | name (s : String)
  | union (ts : List String)
  | record
deriving DecidableEq, Repr

/-- `optional`: set only when the type is a union containing
`"null"`. -/
def optionalOf : SchemaType → Bool
  | .union ts => ts.contains "null"
  | _ => false

/-- `single`: the type is, or is a union containing, `File` or
`Directory`. -/
def singleOf : SchemaType → Bool
  | .union ts => ts.contains "File" || ts.contains "Directory"
  | .name s => s = "File" || s = "Directory"
  | .record => false

/-- Python `repr` of a string (quotes and escapes beyond the plain
single-quoted form are not modelled). -/
def pyStrRepr (s : String) : String :=
  "\x27" ++ s ++ "\x27"

/-- Python `repr` of a list of strings. -/
def pyListRepr (l : List String) : String :=
  "[" ++ strIntercalate ", " (l.map pyStrRepr) ++ "]"

/-- The "glob did not match" workflow error message. -/
def globNotFoundMsg (globpatterns : List String) : String :=
  "Did not find output file with glob pattern: \x27" ++ pyListRepr globpatterns ++ "\x27"

/-- The single-port cardinality step of `collect_output`: an empty
non-optional result fails; an empty optional result passes through; a
list longer than one fails; a one-element list is unwrapped.  Non-single
ports pass through. -/
def applySingleCardinality (single optional : Bool) (globpatterns : List String)
    (result : CWLVal) : Except String CWLVal :=
  if single then
    if !truthy result && !optional then .error (globNotFoundMsg globpatterns)
    else if !truthy result && optional then .ok result
    else
      match result with
      | .arr xs =>
          if xs.length > 1 then
            .error "Multiple matches for output item that is a single file."
          else
            match xs with
            | [x] => .ok x
            | _ => .error "IndexError: list index out of range"
      | _ => .ok result
  else .ok result

/-- The final optional step of `collect_output`: a falsy result on an
optional port becomes `null` unless it equals `0` or `""` (Python
equality, so `False` also stays, as `False == 0`). -/
def finalizeOptional (optional : Bool) (result : CWLVal) : CWLVal :=
  if !truthy result && optional then
    match result with
    | .num 0 => result
    | .str "" => result
    | .bool false => result
    | _ => .null
  else result

/-- The cardinality handling of `collect_output` for one port, from the
evaluated result to the returned value (the secondary-file, format and
remap steps in between only rewrite File/Directory descriptors inside a
truthy result and are modelled separately). -/
def collectResultPhase (t : SchemaType) (globpatterns : List String) (result : CWLVal) :
    Except String CWLVal := do
  let r ← applySingleCardinality (singleOf t) (optionalOf t) globpatterns result
  .ok (finalizeOptional (optionalOf t) r)

/-! ### Secondary files (`collect_output`, `secondaryFiles` block) -/

/-- One declared secondary-file descriptor: its `pattern` and optional
`required` entry (a boolean or an expression). -/
structure SecondarySpec where
  pattern : String
  required : Option CWLVal := none

/-- A value produced for a secondary-file pattern: a path string or a
File/Directory descriptor. -/
inductive SfItem where
  | strI (s : String)
  | descI (d : FileDesc)
deriving DecidableEq, Repr

/-- Truthiness of a secondary-file item (descriptor mappings are
nonempty, hence truthy). -/
def sfTruthy : SfItem → Bool
  | .strI s => s != ""
  | .descI _ => true

/-- Does the pattern contain an expression marker (a dollar sign
followed by an opening parenthesis or brace)? -/
def containsExpr (p : String) : Bool :=
  charsInfixOf "$(".data p.data || charsInfixOf "$\x7b".data p.data

/-- The base name with its last extension stripped, when it has one. -/
def stripExtension (s : String) : Option String :=
  match lastIdxOf '.' s.toList with
  | some i => some (s.take i)
  | none => none

/-- `Modelled from the spec:` the pattern-substitution rule of
`substitute` (`cwltool/builder.py`, not under `src/`): each caret at
the front of the pattern strips one extension from the value (a value
without extensions keeps its name and drops the carets), then the
remainder of the pattern is appended. -/
def substituteAux (value : String) : List Char → String
  | '^' :: rest =>
      (match stripExtension value with
       | some v => substituteAux v rest
       | none => value ++ String.mk (List.dropWhile (· = '^') ('^' :: rest)))
  | rest => value ++ String.mk rest

/-- See `substituteAux`. -/
def substitute (value replace : String) : String :=
  substituteAux value replace.toList

/-- `sf_required`: evaluate the `required` entry against the primary
(`evalReq` is `builder.do_eval` with the primary as context), defaulting
to `False` when absent. -/
def sfRequiredOf (evalReq : CWLVal → CWLVal) (sf : SecondarySpec) : CWLVal :=
  match sf.required with
  | some e => evalReq e
  | none => .bool false

/-- Process one secondary-file item for a primary: skip falsy items;
wrap strings as `{path: pathpre + item}`; fail when the path is
missing on the filesystem and the secondary is required; reverse-map
items that have a `path` but no `location`; classify the result as File
or Directory via `fs_access` and return it for appending (items that
are neither are dropped). -/
def processSfItem (fs : FS) (b : RevBuilder) (outdir0 pathpre : String)
    (required : Bool) (item : SfItem) : Except String (Option FileDesc) :=
  if !sfTruthy item then .ok none
  else
    let sfitem : FileDesc :=
      match item with
      | .strI s => { path := some (pathpre ++ s) }
      | .descI d => d
    match sfitem.path with
    | none => .error "KeyError: path"
    | some p =>
        if !fs.existsF p && required then
          .error ("Missing required secondary file \x27" ++ p ++ "\x27")
        else do
          let sfitem ←
            if sfitem.location.isNone then revmap_file b outdir0 sfitem
            else .ok sfitem
          match sfitem.location with
          | none => .error "KeyError: location"
          | some loc =>
              if fs.isfileF loc then .ok (some { sfitem with cls := some "File" })
              else if fs.isdirF loc then .ok (some { sfitem with cls := some "Directory" })
              else .ok none

/-- `primary["path"][0 : primary["path"].rindex("/") + 1]`: the path
prefix up to and including the last slash (`rindex` raises when there
is none). -/
def pathUpToLastSlash (p : String) : Except String String :=
  match lastIdxOf '/' p.toList with
  | some i => .ok (p.take (i + 1))
  | none => .error "ValueError: substring not found"

/-- The `secondaryFiles` block of `collect_output` for one primary
result: for each declared secondary, evaluate `required`, compute the
item list (by expression evaluation — `evalPat`, already list-wrapped —
or by pattern substitution on the primary's basename), and process each
item, collecting the descriptors appended to the primary's
`secondaryFiles`. -/
def processSecondaryFiles (fs : FS) (b : RevBuilder) (outdir0 : String)
    (evalReq : CWLVal → CWLVal) (evalPat : String → List SfItem)
    (primary : FileDesc) (sfs : List SecondarySpec) : Except String (List FileDesc) :=
  match primary.path with
  | none => .error "KeyError: path"
  | some p => do
      let pathpre ← pathUpToLastSlash p
      sfs.foldlM (fun acc sf => do
        let required := truthy (sfRequiredOf evalReq sf)
        let items ←
          if containsExpr sf.pattern then Except.ok (evalPat sf.pattern)
          else
            match primary.basename with
            | some bn => Except.ok [SfItem.strI (substitute bn sf.pattern)]
            | none => Except.error "KeyError: basename"
        items.foldlM (fun acc2 it => do
          match ← processSfItem fs b outdir0 pathpre required it with
          | some d => pure (acc2 ++ [d])
          | none => pure acc2) acc) []

/-! ### Mutation registration (`CommandLineTool.job`, step 8)

The `MutationManager` itself lives in `cwltool/mutation.py`, outside
`src/`; its operations are modelled from the spec (§4.3). -/

/-- Set a key in an association list (insertion order preserved). -/
def alistSet {β : Type} (k : String) (v : β) : List (String × β) → List (String × β)
  | [] => [(k, v)]
  | (k2, v2) :: rest => if k2 = k then (k2, v) :: rest else (k2, v2) :: alistSet k v rest

/-- Look up a key in an association list. -/
def alistGet {β : Type} (k : String) : List (String × β) → Option β
  | [] => none
  | (k2, v) :: rest => if k2 = k then some v else alistGet k rest

/-- `Modelled from the spec:` the `MutationManager` registry
(`cwltool/mutation.py`, not under `src/`): per file location, a set of
reader job names and at most one mutator. -/
structure MMState where
  readerLocs : List (String × List String) := []
  mutatorLocs : List (String × String) := []
deriving DecidableEq, Repr

/-- `Modelled from the spec:` `MutationManager.register_reader` — adds
the job to the location's readers; fails synchronously when the
location has a mutator. -/
def mmRegisterReader (job loc : String) (mm : MMState) : Except String MMState :=
  if (alistGet loc mm.mutatorLocs).isSome then
    .error ("\x27" ++ loc ++ "\x27 is locked for mutation")
  else
    let cur := (alistGet loc mm.readerLocs).getD []
    .ok { mm with
          readerLocs := alistSet loc (if cur.contains job then cur else cur ++ [job])
            mm.readerLocs }

/-- `Modelled from the spec:` `MutationManager.register_mutation` —
sets the job as the location's mutator; fails synchronously when any
reader or mutator exists. -/
def mmRegisterMutation (job loc : String) (mm : MMState) : Except String MMState :=
  if (alistGet loc mm.mutatorLocs).isSome ||
      !((alistGet loc mm.readerLocs).getD []).isEmpty then
    .error ("\x27" ++ loc ++ "\x27 is in use")
  else
    .ok { mm with mutatorLocs := alistSet loc job mm.mutatorLocs }

/-- The job-side registration state: the mutation-manager registry, the
`muts` set of locations registered as mutations, and the keys of the
`readers` snapshot dictionary in insertion order (values are deep
copies of the descriptors; the claims concern the keys). -/
structure RegState where
  mm : MMState := {}
  muts : List String := []
  readers : List String := []
deriving DecidableEq, Repr

/-- `register_mut` (nested in `CommandLineTool.job`): add the location
to `muts` and register the mutation with the manager. -/
def register_mut (job loc : String) (st : RegState) : Except String RegState := do
  let muts := if st.muts.contains loc then st.muts else st.muts ++ [loc]
  let mm ← mmRegisterMutation job loc st.mm
  .ok { st with mm := mm, muts := muts }

/-- `register_reader` (nested in `CommandLineTool.job`): skip locations
already in `muts`; otherwise register the read with the manager and
snapshot the descriptor into `readers`, keyed by location. -/
def register_reader (job loc : String) (st : RegState) : Except String RegState :=
  if st.muts.contains loc then .ok st
  else do
    let mm ← mmRegisterReader job loc st.mm
    let readers := if st.readers.contains loc then st.readers else st.readers ++ [loc]
    .ok { st with mm := mm, readers := readers }

/-- One `generatefiles` listing entry as the registration loop sees it:
its `writable` flag and the locations of the file/directory objects
reached by `adjustFileObjs`/`adjustDirObjs`. -/
structure ListingEntry where
  writable : Bool := false
  files : List String
deriving DecidableEq, Repr

/-- The `for li in j.generatefiles["listing"]` loop: writable entries
under `InplaceUpdateRequirement` register mutations, everything else
registers reads. -/
def registerListing (job : String) (inplaceUpdate : Bool) (entries : List ListingEntry)
    (st : RegState) : Except String RegState :=
  entries.foldlM (fun st li =>
    if li.writable && inplaceUpdate then li.files.foldlM (fun st l => register_mut job l st) st
    else li.files.foldlM (fun st l => register_reader job l st) st) st

/-- Step 8 of `CommandLineTool.job`: register the staged listing, then
register reads for every file/directory location reached from
`builder.files` and `builder.bindings` (`builderFiles`, repeats
allowed). -/
def registerMutations (job : String) (inplaceUpdate : Bool) (entries : List ListingEntry)
    (builderFiles : List String) : Except String RegState := do
  let st ← registerListing job inplaceUpdate entries {}
  builderFiles.foldlM (fun st l => register_reader job l st) st

/-- The invariant maintained by mutation/reader registration: the
readers keys are unique, every snapshotted reader location has a
nonempty reader set in the manager, and `muts` is disjoint from the
readers map. -/
def RegInv (st : RegState) : Prop :=
  st.readers.Nodup ∧
  (∀ l ∈ st.readers, ((alistGet l st.mm.readerLocs).getD []) ≠ []) ∧
  (∀ l ∈ st.muts, l ∉ st.readers)

end Cwltool



namespace Cwltool

/-! ## Dictionary lemmas -/

theorem dictLookup_insert_self (k : String) (v : CWLVal) (d : Dict) :
    dictLookup k (dictInsert k v d) = some v := by
  induction d with
  | nil => simp [dictInsert, dictLookup]
  | cons kv rest ih =>
      obtain ⟨k2, v2⟩ := kv
      by_cases h : k2 = k
      · simp [dictInsert, dictLookup, h]
      · simp [dictInsert, dictLookup, h, ih]

theorem dictLookup_insert_ne (k k2 : String) (v : CWLVal) (d : Dict) (h : k2 ≠ k) :
    dictLookup k (dictInsert k2 v d) = dictLookup k d := by
  induction d with
  | nil => simp [dictInsert, dictLookup, h]
  | cons kv rest ih =>
      obtain ⟨k3, v3⟩ := kv
      by_cases h3 : k3 = k2
      · subst h3
        simp [dictInsert, dictLookup, h]
      · simp [dictInsert, dictLookup, h3, ih]

theorem dictLookup_singleton_ne (k k2 : String) (v : CWLVal) (h : k2 ≠ k) :
    dictLookup k [(k2, v)] = none := by
  simp [dictLookup, h]

theorem dictLookup_insertIfPresent_ne (k k2 : String) (v : Option CWLVal) (d : Dict)
    (h : k2 ≠ k) :
    dictLookup k (insertIfPresent k2 v d) = dictLookup k d := by
  cases v with
  | none => rfl
  | some x => exact dictLookup_insert_ne k k2 x d h

theorem dictLookup_insertIfPresent_self (k : String) (v : Option CWLVal) (d : Dict)
    (h : dictLookup k d = none) :
    dictLookup k (insertIfPresent k v d) = v := by
  cases v with
  | none => exact h
  | some x => exact dictLookup_insert_self k x d

end Cwltool


namespace Cwltool

/-! ## Cache keydict lemmas -/

theorem dictLookup_cacheFileEntries_notMem (files : List BuilderFile) (stat : StatFn)
    (pm : List MapperEnt) (d : Dict) (k : String)
    (hk : ∀ e ∈ pm, e.typ = "File" → e.resolved ≠ k) :
    dictLookup k (cacheFileEntries files stat pm d) = dictLookup k d := by
  induction pm generalizing d with
  | nil => rfl
  | cons e rest ih =>
      have hrest : ∀ e2 ∈ rest, e2.typ = "File" → e2.resolved ≠ k :=
        fun e2 he2 ht => hk e2 (List.mem_cons_of_mem _ he2) ht
      by_cases he : e.typ = "File"
      · have hne : e.resolved ≠ k := hk e (List.mem_cons_self _ _) he
        simp only [cacheFileEntries]
        rw [if_pos he, ih _ hrest, dictLookup_insert_ne _ _ _ _ hne]
      · simp only [cacheFileEntries]
        rw [if_neg he]
        exact ih _ hrest

theorem dictLookup_cacheFileEntries (files : List BuilderFile) (stat : StatFn)
    (pm : List MapperEnt) (d : Dict) (k : String)
    (hnodup : ((pm.filter (fun e => e.typ = "File")).map (fun e => e.resolved)).Nodup) :
    dictLookup k (cacheFileEntries files stat pm d) =
      match (pm.filter (fun e => e.typ = "File")).find? (fun e => e.resolved = k) with
      | some e => some (cacheFileVal files stat e)
      | none => dictLookup k d := by
  induction pm generalizing d with
  | nil => rfl
  | cons e rest ih =>
      by_cases he : e.typ = "File"
      · have hfilter : (e :: rest).filter (fun e => e.typ = "File") =
            e :: rest.filter (fun e => e.typ = "File") := by
          simp [List.filter_cons, he]
        rw [hfilter] at hnodup
        rw [List.map_cons, List.nodup_cons] at hnodup
        obtain ⟨hnotin, hnd⟩ := hnodup
        simp only [cacheFileEntries]
        rw [if_pos he]
        by_cases hr : e.resolved = k
        · subst hr
          have hrest : ∀ e2 ∈ rest, e2.typ = "File" → e2.resolved ≠ e.resolved := by
            intro e2 he2 ht heq
            exact hnotin (List.mem_map.mpr ⟨e2, List.mem_filter.mpr ⟨he2, by simp [ht]⟩, heq⟩)
          rw [dictLookup_cacheFileEntries_notMem _ _ _ _ _ hrest,
            dictLookup_insert_self]
          rw [hfilter, List.find?_cons]
          simp
        · rw [ih _ hnd, hfilter, List.find?_cons]
          have : (decide (e.resolved = k)) = false := by simp [hr]
          rw [this]
          cases hf : (rest.filter (fun e => e.typ = "File")).find? (fun e => e.resolved = k) with
          | some e2 => simp
          | none => simp [dictLookup_insert_ne _ _ _ _ hr]
      · have hfilter : (e :: rest).filter (fun e => e.typ = "File") =
            rest.filter (fun e => e.typ = "File") := by
          simp [List.filter_cons, he]
        rw [hfilter] at hnodup
        simp only [cacheFileEntries]
        rw [if_neg he]
        rw [ih _ hnodup, hfilter]

end Cwltool


namespace Cwltool

theorem dictLookup_addInterestingList_notInteresting (l : List Requirement) (d : Dict)
    (k : String) (hk : interesting.contains k = false) :
    dictLookup k (addInterestingList l d) = dictLookup k d := by
  induction l generalizing d with
  | nil => rfl
  | cons r rest ih =>
      simp only [addInterestingList]
      by_cases hc : (interesting.contains r.1 && !dictContains r.1 d) = true
      · rw [if_pos hc]
        have hne : r.1 ≠ k := by
          intro h
          rw [h] at hc
          rw [hk] at hc
          simp at hc
        rw [ih, dictLookup_insert_ne _ _ _ _ hne]
      · rw [if_neg hc]
        exact ih d

theorem dictLookup_addInterestingList_interesting (l : List Requirement) (d : Dict)
    (k : String) (hk : interesting.contains k = true) :
    dictLookup k (addInterestingList l d) =
      match dictLookup k d with
      | some v => some v
      | none => (l.find? (fun r => r.1 = k)).map (fun r => r.2) := by
  induction l generalizing d with
  | nil => cases h : dictLookup k d <;> simp [addInterestingList, h]
  | cons r rest ih =>
      simp only [addInterestingList, List.find?_cons]
      by_cases hr : r.1 = k
      · cases hd : dictLookup k d with
        | some v =>
            have hcon : dictContains r.1 d = true := by
              rw [hr]
              simp [dictContains, hd]
            rw [if_neg (by simp [hcon])]
            rw [ih d, hd]
        | none =>
            have hcon : dictContains r.1 d = false := by
              rw [hr]
              simp [dictContains, hd]
            have hpos : (interesting.contains r.1 && !dictContains r.1 d) = true := by
              rw [hcon, hr, hk]
              rfl
            rw [if_pos hpos, ih _, hr, dictLookup_insert_self]
            simp
      · have hlk : ∀ d2 : Dict, dictLookup k d2 = dictLookup k d →
            dictLookup k (addInterestingList rest d2) =
              match dictLookup k d with
              | some v => some v
              | none => (rest.find? (fun r => r.1 = k)).map (fun r => r.2) := by
          intro d2 h2
          rw [ih d2, h2]
        have hfind : (decide (r.1 = k)) = false := by simp [hr]
        rw [hfind]
        by_cases hc : (interesting.contains r.1 && !dictContains r.1 d) = true
        · rw [if_pos hc]
          exact hlk _ (dictLookup_insert_ne _ _ _ _ hr)
        · rw [if_neg hc]
          exact hlk _ rfl

end Cwltool


namespace Cwltool

/-- C1 counterexample: with a `DockerRequirement` in both `requirements`
and `hints`, the cache keydict stores the last occurrence from the
requirements, not the last occurrence of the combined
requirements-then-hints sequence, so the claimed selection rule fails. -/
theorem C1_counterexample :
    dictLookup "DockerRequirement"
        (cacheKeydict [] none false none none none none [] (fun _ => (0, 0)) []
          [("DockerRequirement", .str "fromRequirements")]
          [("DockerRequirement", .str "fromHints")]) =
      some (.str "fromRequirements") ∧
    lastOccurrence ([("DockerRequirement", CWLVal.str "fromRequirements")] ++
        [("DockerRequirement", CWLVal.str "fromHints")]) "DockerRequirement" =
      some (.str "fromHints") ∧
    ("fromRequirements" : String) ≠ "fromHints" :=
  ⟨rfl, rfl, by decide⟩

/-- C1 (amended): the cache key is exactly the MD5 hex digest of the
canonical JSON serialization (sorted keys, compact separators) of the
keydict, and the keydict is the claimed mapping — full resolved command
line, verbatim stdin/stdout/stderr entries, `[size, checksum]` or
`[size, mtime_ms]` per path-mapper `File` keyed by resolved path, and,
for each interesting class, its last occurrence among the requirements
when present there, otherwise its last occurrence among the hints. -/
theorem C1_cachekey_canonical (md5hex : String → String) (genCmdline : List CWLVal)
    (dockerReq : Option Dict) (useContainer : Bool) (defaultContainer : Option CWLVal)
    (toolStdin toolStdout toolStderr : Option CWLVal)
    (files : List BuilderFile) (stat : StatFn) (pm : List MapperEnt)
    (reqs hints : List Requirement)
    (hnodup : ((pm.filter (fun e => e.typ = "File")).map (fun e => e.resolved)).Nodup)
    (hfresh : ∀ e ∈ pm, e.typ = "File" → e.resolved ∉ reservedCacheKeys) :
    cachekeyOf md5hex genCmdline dockerReq useContainer defaultContainer toolStdin toolStdout
        toolStderr files stat pm reqs hints =
      md5hex (dumpJson (.obj (cacheKeydict genCmdline dockerReq useContainer defaultContainer
        toolStdin toolStdout toolStderr files stat pm reqs hints))) ∧
    (∀ k, dictLookup k (cacheKeydict genCmdline dockerReq useContainer defaultContainer
        toolStdin toolStdout toolStderr files stat pm reqs hints) =
      specCacheMapping (resolvedCmdline genCmdline dockerReq useContainer defaultContainer)
        toolStdin toolStdout toolStderr files stat pm reqs hints k) := by
  constructor
  · rfl
  · intro k
    have hfromReserved : k ∈ reservedCacheKeys →
        ∀ e ∈ pm, e.typ = "File" → e.resolved ≠ k := by
      intro hkres e he ht heq
      exact hfresh e he ht (by rw [heq]; exact hkres)
    simp only [cacheKeydict, addInteresting, specCacheMapping]
    by_cases hc1 : k = "cmdline"
    · subst hc1
      rw [dictLookup_addInterestingList_notInteresting _ _ _ (by decide),
        dictLookup_addInterestingList_notInteresting _ _ _ (by decide),
        dictLookup_cacheFileEntries_notMem _ _ _ _ _ (hfromReserved (by decide)),
        dictLookup_insertIfPresent_ne _ _ _ _ (by decide),
        dictLookup_insertIfPresent_ne _ _ _ _ (by decide),
        dictLookup_insertIfPresent_ne _ _ _ _ (by decide)]
      rw [if_pos rfl]
      rfl
    by_cases hc2 : k = "stdin"
    · subst hc2
      rw [dictLookup_addInterestingList_notInteresting _ _ _ (by decide),
        dictLookup_addInterestingList_notInteresting _ _ _ (by decide),
        dictLookup_cacheFileEntries_notMem _ _ _ _ _ (hfromReserved (by decide)),
        dictLookup_insertIfPresent_ne _ _ _ _ (by decide),
        dictLookup_insertIfPresent_ne _ _ _ _ (by decide),
        dictLookup_insertIfPresent_self _ _ _ (dictLookup_singleton_ne _ _ _ (by decide))]
      rw [if_neg (by decide), if_pos rfl]
    by_cases hc3 : k = "stdout"
    · subst hc3
      rw [dictLookup_addInterestingList_notInteresting _ _ _ (by decide),
        dictLookup_addInterestingList_notInteresting _ _ _ (by decide),
        dictLookup_cacheFileEntries_notMem _ _ _ _ _ (hfromReserved (by decide)),
        dictLookup_insertIfPresent_ne _ _ _ _ (by decide),
        dictLookup_insertIfPresent_self _ _ _ ?hnone1]
      case hnone1 =>
        rw [dictLookup_insertIfPresent_ne _ _ _ _ (by decide)]
        exact dictLookup_singleton_ne _ _ _ (by decide)
      rw [if_neg (by decide), if_neg (by decide), if_pos rfl]
    by_cases hc4 : k = "stderr"
    · subst hc4
      rw [dictLookup_addInterestingList_notInteresting _ _ _ (by decide),
        dictLookup_addInterestingList_notInteresting _ _ _ (by decide),
        dictLookup_cacheFileEntries_notMem _ _ _ _ _ (hfromReserved (by decide))]
      rw [dictLookup_insertIfPresent_self _ _ _ ?hnone2]
      case hnone2 =>
        rw [dictLookup_insertIfPresent_ne _ _ _ _ (by decide),
          dictLookup_insertIfPresent_ne _ _ _ _ (by decide)]
        exact dictLookup_singleton_ne _ _ _ (by decide)
      rw [if_neg (by decide), if_neg (by decide), if_neg (by decide), if_pos rfl]
    have hbase : dictLookup k
        [("cmdline", CWLVal.arr (resolvedCmdline genCmdline dockerReq useContainer
          defaultContainer))] = none := by
      simp [dictLookup, Ne.symm hc1]
    by_cases hc5 : k ∈ interesting
    · have hcont : interesting.contains k = true := List.elem_iff.mpr hc5
      have hkres : k ∈ reservedCacheKeys := by
        simp only [reservedCacheKeys, List.mem_append]
        exact Or.inr hc5
      rw [dictLookup_addInterestingList_interesting _ _ _ hcont,
        dictLookup_addInterestingList_interesting _ _ _ hcont,
        dictLookup_cacheFileEntries_notMem _ _ _ _ _ (hfromReserved hkres),
        dictLookup_insertIfPresent_ne _ _ _ _ (Ne.symm hc4),
        dictLookup_insertIfPresent_ne _ _ _ _ (Ne.symm hc3),
        dictLookup_insertIfPresent_ne _ _ _ _ (Ne.symm hc2),
        hbase]
      rw [if_neg hc1, if_neg hc2, if_neg hc3, if_neg hc4, if_pos hcont]
      simp only [lastOccurrence]
    · have hcontf : interesting.contains k = false :=
        Bool.eq_false_iff.mpr (fun h => hc5 (List.elem_iff.mp h))
      rw [dictLookup_addInterestingList_notInteresting _ _ _ hcontf,
        dictLookup_addInterestingList_notInteresting _ _ _ hcontf,
        dictLookup_cacheFileEntries _ _ _ _ _ hnodup,
        dictLookup_insertIfPresent_ne _ _ _ _ (Ne.symm hc4),
        dictLookup_insertIfPresent_ne _ _ _ _ (Ne.symm hc3),
        dictLookup_insertIfPresent_ne _ _ _ _ (Ne.symm hc2),
        hbase]
      rw [if_neg hc1, if_neg hc2, if_neg hc3, if_neg hc4, if_neg (by rw [hcontf]; simp)]

/-- C1 witness: the amended cache-key theorem applied to a concrete
invocation with one trusted-checksum file and one mtime-keyed file. -/
theorem C1_cachekey_witness :
    cachekeyOf (fun s => s) [.str "echo"] none false none (some (.str "in.txt")) none none
        [⟨some "file:///data/a.txt", some "sha1$abc"⟩]
        (fun p => if p = "/data/a.txt" then (7, 100) else (9, 200))
        [⟨"file:///data/a.txt", "/data/a.txt", "/stage/a.txt", "File"⟩,
         ⟨"file:///data/b.txt", "/data/b.txt", "/stage/b.txt", "File"⟩]
        [("ShellCommandRequirement", .obj [("class", .str "ShellCommandRequirement")])] [] =
      (fun s => s) (dumpJson (.obj (cacheKeydict [.str "echo"] none false none
        (some (.str "in.txt")) none none
        [⟨some "file:///data/a.txt", some "sha1$abc"⟩]
        (fun p => if p = "/data/a.txt" then (7, 100) else (9, 200))
        [⟨"file:///data/a.txt", "/data/a.txt", "/stage/a.txt", "File"⟩,
         ⟨"file:///data/b.txt", "/data/b.txt", "/stage/b.txt", "File"⟩]
        [("ShellCommandRequirement", .obj [("class", .str "ShellCommandRequirement")])] []))) ∧
    (∀ k, dictLookup k (cacheKeydict [.str "echo"] none false none
        (some (.str "in.txt")) none none
        [⟨some "file:///data/a.txt", some "sha1$abc"⟩]
        (fun p => if p = "/data/a.txt" then (7, 100) else (9, 200))
        [⟨"file:///data/a.txt", "/data/a.txt", "/stage/a.txt", "File"⟩,
         ⟨"file:///data/b.txt", "/data/b.txt", "/stage/b.txt", "File"⟩]
        [("ShellCommandRequirement", .obj [("class", .str "ShellCommandRequirement")])] []) =
      specCacheMapping (resolvedCmdline [.str "echo"] none false none)
        (some (.str "in.txt")) none none
        [⟨some "file:///data/a.txt", some "sha1$abc"⟩]
        (fun p => if p = "/data/a.txt" then (7, 100) else (9, 200))
        [⟨"file:///data/a.txt", "/data/a.txt", "/stage/a.txt", "File"⟩,
         ⟨"file:///data/b.txt", "/data/b.txt", "/stage/b.txt", "File"⟩]
        [("ShellCommandRequirement", .obj [("class", .str "ShellCommandRequirement")])] [] k) :=
  C1_cachekey_canonical (fun s => s) [.str "echo"] none false none
    (some (.str "in.txt")) none none
    [⟨some "file:///data/a.txt", some "sha1$abc"⟩]
    (fun p => if p = "/data/a.txt" then (7, 100) else (9, 200))
    [⟨"file:///data/a.txt", "/data/a.txt", "/stage/a.txt", "File"⟩,
     ⟨"file:///data/b.txt", "/data/b.txt", "/stage/b.txt", "File"⟩]
    [("ShellCommandRequirement", .obj [("class", .str "ShellCommandRequirement")])] []
    (by decide) (by decide)

end Cwltool


namespace Cwltool

/-- C9: a descriptor carrying a `location` but no `path`, whose location
is not a `file://` URI (remote or synthetic), passes through
`revmap_file` unchanged and without error. -/
theorem C9_remote_location_passthrough (b : RevBuilder) (outdir0 : String)
    (f : FileDesc) (loc : String) (hl : f.location = some loc) (hp : f.path = none)
    (hns : strStartsWith loc "file://" = false) :
    revmap_file b outdir0 f = .ok f := by
  simp only [revmap_file, hp, hl, hns]
  simp

/-- C9 witness: a HTTP location passes through. -/
theorem C9_witness :
    revmap_file ⟨"/out", []⟩ "/host/out"
        { location := some "http://example.com/data.txt" } =
      Except.ok { location := some "http://example.com/data.txt" } :=
  C9_remote_location_passthrough _ _ _ "http://example.com/data.txt" rfl rfl rfl

/-- C3: for a descriptor with a path, `revmap_file` is exactly the
claimed cascade (pass-through for non-Writable mapper entries; the URI
for paths under the host output directory; rebase for paths under the
sandbox output directory; join for relative paths; a workflow error
otherwise) together with the bookkeeping of dropping `path` and
defaulting `basename`. -/
theorem C3_revmap_cascade (b : RevBuilder) (outdir0 : String) (f : FileDesc) (p : String)
    (hp : f.path = some p) :
    revmap_file b outdir0 f =
      (specRevmapLocation b outdir0 p).map
        (fun loc => { f with path := none,
                             basename := some (f.basename.getD (os_basename p)),
                             location := some loc }) := by
  have hor : ∀ a b : Bool, ((a || b) || b) = (a || b) := by
    intro a b
    cases a <;> cases b <;> rfl
  simp only [revmap_file, hp, revmapPath, specRevmapLocation, specRevmapFallback, hor]
  cases hfind : reversemapEnt b.pathmapper p with
  | some e =>
      by_cases hw : strStartsWith e.typ "Writable" = true
      · simp only [hw, Bool.not_true, Bool.false_eq_true, if_false]
        split_ifs <;> simp [Except.map]
      · rw [Bool.not_eq_true] at hw
        simp only [hw, Bool.not_false, if_true]
        simp [Except.map]
  | none => split_ifs <;> simp [Except.map]

/-- C3 witness: a path under the sandbox output directory is rebased
onto the host output directory. -/
theorem C3_revmap_witness :
    revmap_file ⟨"/out", []⟩ "/host/out" { path := some "/out/a.txt" } =
      (specRevmapLocation ⟨"/out", []⟩ "/host/out" "/out/a.txt").map
        (fun loc => { path := none, basename := some "a.txt", location := some loc }) :=
  C3_revmap_cascade ⟨"/out", []⟩ "/host/out" { path := some "/out/a.txt" } "/out/a.txt" rfl

theorem list_foldl_append {α β : Type} (f : α → List β) (l : List α) (init : List β) :
    l.foldl (fun acc b => acc ++ f b) init = init ++ (l.map f).flatten := by
  induction l generalizing init with
  | nil => simp
  | cons a as ih => simp [ih]

/-- C4: with `ShellCommandRequirement` the command line is
`["/bin/sh", "-c", joined]` where `joined` joins with spaces every
binding\'s tokens, each POSIX-shell-quoted unless the binding sets
`shellQuote=false`; without the requirement it is the plain flattening
of the generated arguments. -/
theorem C4_shell_command_assembly (bindings : List ShellBinding) :
    assembleCommandLine true bindings =
      ["/bin/sh", "-c",
        strIntercalate " "
          ((bindings.map (fun b =>
            if b.shellQuote.getD true then b.args.map shellQuoteStr else b.args)).flatten)] ∧
    assembleCommandLine false bindings = (bindings.map (fun b => b.args)).flatten := by
  refine ⟨?_, rfl⟩
  simp only [assembleCommandLine, if_true, assembleShellCommand]
  rw [list_foldl_append (fun b =>
    if b.shellQuote.getD true then b.args.map shellQuoteStr else b.args) bindings []]
  rfl

/-- C8: with containers disabled, a `DockerRequirement` among the
tool\'s `requirements` makes `make_job_runner` fail with the
unsupported-requirement error, while a `DockerRequirement` appearing
only in `hints` selects the local-process runner. -/
theorem C8_container_disabled (reqs hints : List Requirement) (ctx : RunnerCtx)
    (hnc : ctx.use_container = false) :
    (reqs.any (fun t => t.1 = "DockerRequirement") = true →
      make_job_runner reqs hints ctx =
        .error "--no-container, but this CommandLineTool has DockerRequirement under \x27requirements\x27.") ∧
    (reqs.any (fun t => t.1 = "DockerRequirement") = false →
      make_job_runner reqs hints ctx = .ok (.commandLineJob, reqs)) := by
  constructor <;> intro h <;>
    simp [make_job_runner, hnc, List.any_reverse, h]

/-- C8 witness: with containers disabled, a requirements-side
`DockerRequirement` errors and a hints-only one runs locally. -/
theorem C8_witness :
    make_job_runner [("DockerRequirement", .obj [])] [] ⟨false, false, none, none⟩ =
      .error "--no-container, but this CommandLineTool has DockerRequirement under \x27requirements\x27." ∧
    make_job_runner [] [("DockerRequirement", .obj [])] ⟨false, false, none, none⟩ =
      .ok (.commandLineJob, []) :=
  ⟨(C8_container_disabled [("DockerRequirement", .obj [])] [] ⟨false, false, none, none⟩ rfl).1 rfl,
   (C8_container_disabled [] [("DockerRequirement", .obj [])] ⟨false, false, none, none⟩ rfl).2 rfl⟩

/-- C2: with a cache directory configured and reuse enabled, when the
cache directory exists and the status file reads exactly `"success"`,
the cache phase yields a `CallbackJob` (no backend job), whose `run`
invokes output collection against the cached directory and calls the
output callback with status `"success"`. -/
theorem C2_cache_hit {α : Type} (collect : String → String → α)
    (cachedir cachekey : String) (workReuse : Option Dict)
    (isdir : String → Bool) (readStatus : String → String)
    (dockerReq : Option Dict) (useContainer : Bool)
    (dockerOutdir : Option String) (randomOutdir : String)
    (hreuse : truthy (enableReuseOf workReuse) = true)
    (hdir : isdir (fs_join cachedir cachekey) = true)
    (hstatus : readStatus (fs_join cachedir cachekey ++ ".status") = "success") :
    ∃ cb, cachePhase (some cachedir) workReuse cachekey isdir readStatus dockerReq
        useContainer dockerOutdir randomOutdir = .hit cb ∧
      cb.outdir = fs_join cachedir cachekey ∧
      runCallbackJob collect cb =
        (collect cb.cachebuilderOutdir (fs_join cachedir cachekey), "success") := by
  refine ⟨⟨if dockerReq.isSome && useContainer then dockerOutdir.getD randomOutdir
           else fs_join cachedir cachekey, fs_join cachedir cachekey⟩, ?_, rfl, rfl⟩
  simp [cachePhase, hreuse, hdir, hstatus]

/-- C2 witness: a concrete cache hit yields the callback job for the
cached directory. -/
theorem C2_witness :
    ∃ cb, cachePhase (some "/cache") none "abc"
        (fun d => d == "/cache/abc") (fun _ => "success") none false none "/rnd" = .hit cb ∧
      cb.outdir = fs_join "/cache" "abc" ∧
      runCallbackJob (fun a b => (a, b)) cb =
        ((fun a b => (a, b)) cb.cachebuilderOutdir (fs_join "/cache" "abc"), "success") :=
  C2_cache_hit (fun a b => (a, b)) "/cache" "abc" none (fun d => d == "/cache/abc")
    (fun _ => "success") none false none "/rnd" rfl rfl rfl

end Cwltool


namespace Cwltool

/-- C5: the cardinality rules of `collect_output`: `optional` iff the
type union contains `null`; `single` iff the type is or includes
`File`/`Directory`; empty non-optional single results fail with the
glob-pattern error; empty optional results become `null`; lists longer
than one fail; one-element lists unwrap; and a literal `0` or empty
string on an optional port is returned as-is, never coerced to null. -/
theorem C5_output_cardinality (t : SchemaType) (gp : List String) (r : CWLVal) :
    (optionalOf t = true ↔ ∃ ts, t = .union ts ∧ ts.contains "null" = true) ∧
    (singleOf t = true ↔ (t = .name "File" ∨ t = .name "Directory" ∨
      ∃ ts, t = .union ts ∧ (ts.contains "File" = true ∨ ts.contains "Directory" = true))) ∧
    (singleOf t = true → optionalOf t = false → truthy r = false →
      collectResultPhase t gp r = .error (globNotFoundMsg gp)) ∧
    (singleOf t = true → optionalOf t = true → (r = .arr [] ∨ r = .null) →
      collectResultPhase t gp r = .ok .null) ∧
    (∀ xs, singleOf t = true → xs.length > 1 →
      applySingleCardinality (singleOf t) (optionalOf t) gp (.arr xs) =
        .error "Multiple matches for output item that is a single file.") ∧
    (∀ x, singleOf t = true →
      applySingleCardinality (singleOf t) (optionalOf t) gp (.arr [x]) = .ok x) ∧
    (optionalOf t = true →
      collectResultPhase t gp (.num 0) = .ok (.num 0) ∧
      collectResultPhase t gp (.str "") = .ok (.str "")) := by
  refine ⟨?_, ?_, ?_, ?_, ?_, ?_, ?_⟩
  · cases t <;> simp [optionalOf]
  · cases t <;> simp [singleOf]
  · intro hs ho hr
    simp [collectResultPhase, applySingleCardinality, hs, ho, hr, Bind.bind, Except.bind]
  · intro hs ho hre
    rcases hre with rfl | rfl <;>
      simp [collectResultPhase, applySingleCardinality, finalizeOptional, truthy, hs, ho,
        Bind.bind, Except.bind]
  · intro xs hs hlen
    have hne : xs.isEmpty = false := by
      cases xs with
      | nil => simp at hlen
      | cons a as => rfl
    simp [applySingleCardinality, hs, truthy, hne, hlen]
  · intro x hs
    simp [applySingleCardinality, hs, truthy]
  · intro ho
    cases hsingle : singleOf t <;>
      constructor <;>
        simp [collectResultPhase, applySingleCardinality, finalizeOptional, truthy, ho,
          hsingle, Bind.bind, Except.bind]

/-- C5 witness: an optional `File` port with an empty glob result
collects `null`. -/
theorem C5_witness :
    collectResultPhase (.union ["null", "File"]) ["*.txt"] (.arr []) = .ok .null :=
  (C5_output_cardinality (.union ["null", "File"]) ["*.txt"] (.arr [])).2.2.2.1 rfl rfl
    (Or.inl rfl)

/-! ## Sorting lemmas (for glob collation) -/

theorem charListLe_total (a : List Char) : ∀ b : List Char,
    charListLe a b = true ∨ charListLe b a = true := by
  induction a with
  | nil => intro b; exact Or.inl rfl
  | cons x xs ih =>
      intro b
      cases b with
      | nil => exact Or.inr rfl
      | cons y ys =>
          by_cases h1 : x.toNat < y.toNat
          · left
            simp [charListLe, h1]
          · by_cases h2 : y.toNat < x.toNat
            · right
              simp [charListLe, h2]
            · rcases ih ys with h | h
              · left
                simp [charListLe, h1, h2, h]
              · right
                simp [charListLe, h1, h2, h]

theorem charListLe_trans : ∀ (a b c : List Char),
    charListLe a b = true → charListLe b c = true → charListLe a c = true
  | [], _, _, _, _ => rfl
  | _ :: _, [], _, h1, _ => by simp [charListLe] at h1
  | _ :: _, _ :: _, [], _, h2 => by simp [charListLe] at h2
  | x :: xs, y :: ys, z :: zs, h1, h2 => by
      simp only [charListLe] at h1 h2 ⊢
      by_cases hxy : x.toNat < y.toNat
      · by_cases hyz : y.toNat < z.toNat
        · rw [if_pos (Nat.lt_trans hxy hyz)]
        · rw [if_neg hyz] at h2
          by_cases hzy : z.toNat < y.toNat
          · rw [if_pos hzy] at h2
            exact absurd h2 (by simp)
          · rw [if_pos (by omega)]
      · rw [if_neg hxy] at h1
        by_cases hyx : y.toNat < x.toNat
        · rw [if_pos hyx] at h1
          exact absurd h1 (by simp)
        · rw [if_neg hyx] at h1
          by_cases hyz : y.toNat < z.toNat
          · rw [if_pos hyz] at h2
            rw [if_pos (by omega)]
          · rw [if_neg hyz] at h2
            by_cases hzy : z.toNat < y.toNat
            · rw [if_pos hzy] at h2
              exact absurd h2 (by simp)
            · rw [if_neg hzy] at h2
              rw [if_neg (by omega), if_neg (by omega)]
              exact charListLe_trans xs ys zs h1 h2

theorem strLe_total (a b : String) : strLe a b = true ∨ strLe b a = true :=
  charListLe_total a.data b.data

theorem strLe_trans (a b c : String) (h1 : strLe a b = true) (h2 : strLe b c = true) :
    strLe a c = true :=
  charListLe_trans a.data b.data c.data h1 h2

theorem insertSortedStr_perm (x : String) (l : List String) :
    List.Perm (insertSortedStr x l) (x :: l) := by
  induction l with
  | nil => exact List.Perm.refl _
  | cons y ys ih =>
      by_cases h : strLe x y = true
      · simp [insertSortedStr, h]
      · simp only [insertSortedStr, if_neg h]
        exact (ih.cons y).trans (List.Perm.swap x y ys)

theorem mem_insertSortedStr (b x : String) (l : List String)
    (hb : b ∈ insertSortedStr x l) : b = x ∨ b ∈ l :=
  List.mem_cons.mp ((insertSortedStr_perm x l).mem_iff.mp hb)

theorem pairwise_insertSortedStr (x : String) (l : List String)
    (h : l.Pairwise (fun a b => strLe a b = true)) :
    (insertSortedStr x l).Pairwise (fun a b => strLe a b = true) := by
  induction l with
  | nil => simp [insertSortedStr]
  | cons y ys ih =>
      rw [List.pairwise_cons] at h
      obtain ⟨hy, hys⟩ := h
      by_cases hxy : strLe x y = true
      · simp only [insertSortedStr, if_pos hxy]
        refine List.Pairwise.cons ?_ (List.Pairwise.cons hy hys)
        intro b hb
        rcases List.mem_cons.mp hb with rfl | hb
        · exact hxy
        · exact strLe_trans x y b hxy (hy b hb)
      · simp only [insertSortedStr, if_neg hxy]
        have hyx : strLe y x = true := (strLe_total x y).resolve_left hxy
        refine List.Pairwise.cons ?_ (ih hys)
        intro b hb
        rcases mem_insertSortedStr b x ys hb with rfl | hb
        · exact hyx
        · exact hy b hb

theorem sortStrings_perm (l : List String) : List.Perm (sortStrings l) l := by
  induction l with
  | nil => exact List.Perm.refl _
  | cons x xs ih => exact (insertSortedStr_perm x (sortStrings xs)).trans (ih.cons x)

theorem sortStrings_sorted (l : List String) :
    (sortStrings l).Pairwise (fun a b => strLe a b = true) := by
  induction l with
  | nil => simp [sortStrings]
  | cons x xs ih => exact pairwise_insertSortedStr x (sortStrings xs) ih

/-- C7 counterexample: a glob pattern that starts with a slash but lies
under the sandbox output directory (here `/out`) is translated to a
relative pattern instead of being rejected, so the claim that every
pattern starting with a slash raises a workflow error fails. -/
theorem C7_counterexample :
    strStartsWith "/out/foo.txt" "/" = true ∧
    translateGlob "/out" "/host/out" "/out/foo.txt" = .ok "foo.txt" :=
  ⟨rfl, rfl⟩

/-- C7 (amended): the glob translation checks apply in source order —
patterns under the in-sandbox output directory are made relative first,
then `.` becomes the output directory, then a remaining pattern starting
with a slash is rejected; surviving patterns are executed via
`fs_access.glob` joined to the output directory, and the hits are sorted
by locale collation (code-point order) before wrapping. -/
theorem C7_glob_handling (fs : FS) (bdir odir gb pat : String) :
    (strStartsWith gb bdir = true →
      translateGlob bdir odir gb = .ok (gb.drop (bdir.length + 1))) ∧
    (strStartsWith gb bdir = false → gb = "." →
      translateGlob bdir odir gb = .ok odir) ∧
    (strStartsWith gb bdir = false → gb ≠ "." → strStartsWith gb "/" = true →
      translateGlob bdir odir gb = .error "glob patterns must not start with \x27/\x27") ∧
    (strStartsWith gb bdir = false → gb ≠ "." → strStartsWith gb "/" = false →
      translateGlob bdir odir gb = .ok gb) ∧
    (∀ pfx rest, fs.globF odir = pfx :: rest →
      globExecute fs bdir odir pat =
        .ok ((sortStrings (fs.globF (fs_join odir pat))).map (globWrap fs bdir pfx.length)) ∧
      (sortStrings (fs.globF (fs_join odir pat))).Pairwise (fun a b => strLe a b = true) ∧
      List.Perm (sortStrings (fs.globF (fs_join odir pat))) (fs.globF (fs_join odir pat))) := by
  refine ⟨?_, ?_, ?_, ?_, ?_⟩
  · intro h
    simp [translateGlob, h]
  · intro h1 h2
    subst h2
    simp [translateGlob, h1]
  · intro h1 h2 h3
    simp [translateGlob, h1, h2, h3]
  · intro h1 h2 h3
    simp [translateGlob, h1, h2, h3]
  · intro pfx rest hg
    exact ⟨by simp [globExecute, hg], sortStrings_sorted _, sortStrings_perm _⟩

/-- C7 witness: a pattern under the sandbox output directory is made
relative. -/
theorem C7_witness :
    translateGlob "/out" "/hostout" "/out/sub/x.txt" = .ok "sub/x.txt" :=
  (C7_glob_handling ⟨fun _ => true, fun _ => true, fun _ => false, fun _ => []⟩
    "/out" "/hostout" "/out/sub/x.txt" "").1 rfl

end Cwltool


namespace Cwltool

/-! ## Secondary-file theorems -/

/-- C6: in secondary-file processing, the `required` flag defaults to
false and is otherwise evaluated against the primary; a missing
required secondary path raises the "Missing required secondary file"
error; an existing path is reverse-mapped and classified as File or
Directory via `fs_access` before being returned for appending. -/
theorem C6_secondary_collection (fs : FS) (b : RevBuilder) (outdir0 pathpre : String)
    (evalReq : CWLVal → CWLVal) (sf : SecondarySpec) (req : Bool) :
    (sf.required = none → sfRequiredOf evalReq sf = .bool false) ∧
    (∀ e, sf.required = some e → sfRequiredOf evalReq sf = evalReq e) ∧
    (∀ s, s ≠ "" → fs.existsF (pathpre ++ s) = false →
      processSfItem fs b outdir0 pathpre true (.strI s) =
        .error ("Missing required secondary file \x27" ++ (pathpre ++ s) ++ "\x27")) ∧
    (∀ s d2, s ≠ "" → fs.existsF (pathpre ++ s) = true →
      revmap_file b outdir0 { path := some (pathpre ++ s) } = .ok d2 →
      ∀ loc, d2.location = some loc →
        (fs.isfileF loc = true →
          processSfItem fs b outdir0 pathpre req (.strI s) =
            .ok (some { d2 with cls := some "File" })) ∧
        (fs.isfileF loc = false → fs.isdirF loc = true →
          processSfItem fs b outdir0 pathpre req (.strI s) =
            .ok (some { d2 with cls := some "Directory" }))) := by
  refine ⟨?_, ?_, ?_, ?_⟩
  · intro h
    simp [sfRequiredOf, h]
  · intro e h
    simp [sfRequiredOf, h]
  · intro s hs hex
    simp [processSfItem, sfTruthy, hs, hex]
  · intro s d2 hs hex hrev loc hloc
    constructor
    · intro hfile
      simp [processSfItem, sfTruthy, hs, hex, hrev, hloc, hfile, Bind.bind, Except.bind]
    · intro hfile hdir
      simp [processSfItem, sfTruthy, hs, hex, hrev, hloc, hfile, hdir, Bind.bind, Except.bind]

/-- C6 witness: `x.bam` produced without its required `x.bam.bai`
fails with the missing-required-secondary-file error. -/
theorem C6_witness :
    processSfItem ⟨fun _ => false, fun _ => false, fun _ => false, fun _ => []⟩
        ⟨"/out", []⟩ "/host/out" "/out/" true (.strI "x.bam.bai") =
      .error ("Missing required secondary file \x27" ++ ("/out/" ++ "x.bam.bai") ++ "\x27") :=
  (C6_secondary_collection ⟨fun _ => false, fun _ => false, fun _ => false, fun _ => []⟩
    ⟨"/out", []⟩ "/host/out" "/out/" (fun v => v) ⟨".bai", some (.bool true)⟩ true).2.2.1
    "x.bam.bai" (by decide) rfl

/-! ## Mutation registration theorems -/

theorem except_bind_ok {ε α β : Type} (x : Except ε α) (g : α → Except ε β) (c : β)
    (h : (x >>= g) = .ok c) : ∃ a, x = .ok a ∧ g a = .ok c := by
  cases x with
  | error e => simp [Bind.bind, Except.bind] at h
  | ok a => exact ⟨a, rfl, by simpa [Bind.bind, Except.bind] using h⟩

theorem foldlM_except_inv {σ α : Type} (P : σ → Prop) (f : σ → α → Except String σ)
    (hf : ∀ s a s2, P s → f s a = .ok s2 → P s2) :
    ∀ (l : List α) (s s2 : σ), P s → l.foldlM f s = .ok s2 → P s2 := by
  intro l
  induction l with
  | nil =>
      intro s s2 hs h
      simp only [List.foldlM_nil] at h
      cases h
      exact hs
  | cons a as ih =>
      intro s s2 hs h
      rw [List.foldlM_cons] at h
      obtain ⟨s1, h1, h2⟩ := except_bind_ok _ _ _ h
      exact ih s1 s2 (hf _ _ _ hs h1) h2

theorem alistGet_set_self {β : Type} (k : String) (v : β) (m : List (String × β)) :
    alistGet k (alistSet k v m) = some v := by
  induction m with
  | nil => simp [alistSet, alistGet]
  | cons kv rest ih =>
      obtain ⟨k2, v2⟩ := kv
      by_cases h : k2 = k
      · simp [alistSet, alistGet, h]
      · simp [alistSet, alistGet, h, ih]

theorem alistGet_set_ne {β : Type} (k k2 : String) (v : β) (m : List (String × β))
    (h : k2 ≠ k) : alistGet k (alistSet k2 v m) = alistGet k m := by
  induction m with
  | nil => simp [alistSet, alistGet, h]
  | cons kv rest ih =>
      obtain ⟨k3, v3⟩ := kv
      by_cases h3 : k3 = k2
      · subst h3
        simp [alistSet, alistGet, h]
      · simp [alistSet, alistGet, h3, ih]

theorem regInv_register_reader (job loc : String) (st st2 : RegState)
    (hinv : RegInv st) (h : register_reader job loc st = .ok st2) : RegInv st2 := by
  obtain ⟨hnd, hne, hdisj⟩ := hinv
  by_cases hm : st.muts.contains loc = true
  · rw [register_reader, if_pos hm] at h
    cases h
    exact ⟨hnd, hne, hdisj⟩
  · rw [register_reader, if_neg hm, mmRegisterReader] at h
    by_cases hmut : (alistGet loc st.mm.mutatorLocs).isSome = true
    · rw [if_pos hmut] at h
      simp [Bind.bind, Except.bind] at h
    · rw [if_neg hmut] at h
      simp only [Bind.bind, Except.bind] at h
      have hmnotin : loc ∉ st.muts := fun hc => hm (List.elem_iff.mpr hc)
      cases h
      refine ⟨?_, ?_, ?_⟩
      · show (if st.readers.contains loc = true then st.readers
            else st.readers ++ [loc]).Nodup
        by_cases hr : st.readers.contains loc = true
        · rw [if_pos hr]
          exact hnd
        · rw [if_neg hr]
          have hrn : loc ∉ st.readers := fun hc => hr (List.elem_iff.mpr hc)
          simp [List.nodup_append, hnd, hrn]
      · intro l hl
        show ((alistGet l (alistSet loc
            (if ((alistGet loc st.mm.readerLocs).getD []).contains job = true then
              (alistGet loc st.mm.readerLocs).getD []
            else (alistGet loc st.mm.readerLocs).getD [] ++ [job])
            st.mm.readerLocs)).getD []) ≠ []
        by_cases hleq : l = loc
        · subst hleq
          rw [alistGet_set_self]
          simp only [Option.getD_some]
          by_cases hj : ((alistGet l st.mm.readerLocs).getD []).contains job = true
          · rw [if_pos hj]
            intro hemp
            rw [hemp] at hj
            simp [List.contains] at hj
          · rw [if_neg hj]
            simp
        · have hl2 : l ∈ st.readers := by
            replace hl : l ∈ (if st.readers.contains loc = true then st.readers
                else st.readers ++ [loc]) := hl
            by_cases hr : st.readers.contains loc = true
            · rwa [if_pos hr] at hl
            · rw [if_neg hr] at hl
              rcases List.mem_append.mp hl with h2 | h2
              · exact h2
              · exact absurd (List.mem_singleton.mp h2) hleq
          rw [alistGet_set_ne _ _ _ _ (fun hh => hleq hh.symm)]
          exact hne l hl2
      · intro l hl
        replace hl : l ∈ st.muts := hl
        have hlr : l ∉ st.readers := hdisj l hl
        have hlne : l ≠ loc := fun hh => hmnotin (hh ▸ hl)
        show l ∉ (if st.readers.contains loc = true then st.readers
            else st.readers ++ [loc])
        by_cases hr : st.readers.contains loc = true
        · rw [if_pos hr]
          exact hlr
        · rw [if_neg hr]
          intro hc
          rcases List.mem_append.mp hc with h2 | h2
          · exact hlr h2
          · exact hlne (List.mem_singleton.mp h2)

theorem regInv_register_mut (job loc : String) (st st2 : RegState)
    (hinv : RegInv st) (h : register_mut job loc st = .ok st2) : RegInv st2 := by
  obtain ⟨hnd, hne, hdisj⟩ := hinv
  rw [register_mut] at h
  obtain ⟨mm2, hmm, hrest⟩ := except_bind_ok _ _ _ h
  rw [mmRegisterMutation] at hmm
  by_cases hfail : ((alistGet loc st.mm.mutatorLocs).isSome ||
      !((alistGet loc st.mm.readerLocs).getD []).isEmpty) = true
  · rw [if_pos hfail] at hmm
    cases hmm
  · rw [if_neg hfail] at hmm
    cases hmm
    cases hrest
    rw [Bool.or_eq_true, not_or] at hfail
    obtain ⟨-, hreade⟩ := hfail
    have hempty : ((alistGet loc st.mm.readerLocs).getD []).isEmpty = true := by
      simpa using hreade
    have hlocr : loc ∉ st.readers := by
      intro hc
      have := hne loc hc
      rw [List.isEmpty_iff] at hempty
      exact this hempty
    refine ⟨hnd, hne, ?_⟩
    intro l hl
    by_cases hl2 : st.muts.contains loc
    · rw [if_pos hl2] at hl
      exact hdisj l hl
    · rw [if_neg hl2] at hl
      rcases List.mem_append.mp hl with h2 | h2
      · exact hdisj l h2
      · rw [List.mem_singleton.mp h2]
        exact hlocr

/-- C10: when step 8 completes without error, the set of locations
registered as mutations and the readers snapshot map are disjoint, and
the readers map holds each location at most once, so release at
collection time releases each reader exactly once. -/
theorem C10_mutation_registration (job : String) (inplaceUpdate : Bool)
    (entries : List ListingEntry) (builderFiles : List String) (st : RegState)
    (h : registerMutations job inplaceUpdate entries builderFiles = .ok st) :
    (∀ l ∈ st.muts, l ∉ st.readers) ∧ st.readers.Nodup := by
  have hinv0 : RegInv {} := by
    refine ⟨List.nodup_nil, ?_, ?_⟩ <;> intro l hl <;> simp at hl
  rw [registerMutations] at h
  obtain ⟨st1, h1, h2⟩ := except_bind_ok _ _ _ h
  have houter : ∀ (s : RegState) (li : ListingEntry) (s2 : RegState), RegInv s →
      (if li.writable && inplaceUpdate then
        li.files.foldlM (fun st l => register_mut job l st) s
      else li.files.foldlM (fun st l => register_reader job l st) s) = .ok s2 →
      RegInv s2 := by
    intro s li s2 hs hh
    by_cases hw : (li.writable && inplaceUpdate) = true
    · rw [if_pos hw] at hh
      exact foldlM_except_inv RegInv _
        (fun s a s2 hs h => regInv_register_mut job a s s2 hs h) li.files s s2 hs hh
    · rw [if_neg hw] at hh
      exact foldlM_except_inv RegInv _
        (fun s a s2 hs h => regInv_register_reader job a s s2 hs h) li.files s s2 hs hh
  have hinv1 : RegInv st1 := by
    rw [registerListing] at h1
    exact foldlM_except_inv RegInv _ houter entries {} st1 hinv0 h1
  have hinv2 : RegInv st :=
    foldlM_except_inv RegInv _
      (fun s a s2 hs hh => regInv_register_reader job a s s2 hs hh)
      builderFiles st1 st hinv1 h2
  exact ⟨hinv2.2.2, hinv2.1⟩

/-- C10 witness: a writable in-place listing entry and a distinct input
file register disjointly and snapshot the reader once. -/
theorem C10_witness :
    (∀ l ∈ (["file:///in/m.dat"] : List String), l ∉ (["file:///in/r.dat"] : List String)) ∧
    (["file:///in/r.dat"] : List String).Nodup :=
  C10_mutation_registration "j" true [⟨true, ["file:///in/m.dat"]⟩] ["file:///in/r.dat"]
    ⟨⟨[("file:///in/r.dat", ["j"])], [("file:///in/m.dat", "j")]⟩,
      ["file:///in/m.dat"], ["file:///in/r.dat"]⟩ rfl

end Cwltool
